import Mathlib

/-!
Shallow embedding of `libcef/browser/net_service/browser_urlrequest_impl.cc`:
the browser-side URL request lifecycle manager (`CefBrowserURLRequest::Context`),
the process-wide `RequestManager` registry, and the transport configuration
performed in `ContinueOnOriginatingThread`.

Machine integers (`int32_t`, `int64`) are modelled as `Int`; none of the values
involved (request ids counting down from -2, byte sizes, net error codes) can
overflow in any execution relevant to the properties below, so no wraparound
modelling is required.  External collaborators (GURL validity, the MIME
database, the loader's reported final URL / net error / cache bit) enter the
model as parameters.  Client callbacks are modelled as an emitted event trace.
-/

namespace BrowserURLRequest

/-- `kInitialRequestID` from the source: browser-created requests start at -2
and go down from there. -/
def kInitialRequestID : Int := -2

/-- `net_service::kContentTypeApplicationFormURLEncoded`. -/
def kContentTypeApplicationFormURLEncoded : String :=
  "application/x-www-form-urlencoded"

/-- `net::ERR_ABORTED` / `cef_errorcode_t ERR_ABORTED`. -/
def ERR_ABORTED : Int := -3

/-! ## RequestManager

Embeds the `RequestManager` class: a map from `int32_t` request ids to
(request, client) pairs, here an association list over an arbitrary entry
type `α`.  `std::map::insert` does not overwrite an existing key, so `Add`
leaves the map unchanged when the key is already present. -/

/-- The `RequestManager` registry: `std::map<int32_t, RequestInfo>`. -/
structure RequestManager (α : Type) where
  map : List (Int × α)
deriving DecidableEq

/-- A freshly constructed (empty) `RequestManager`. -/
def RequestManager.empty {α : Type} : RequestManager α := ⟨[]⟩

/-- `RequestManager::Add`: inserts the entry (no overwrite, matching
`std::map::insert`).  The source `DCHECK`s that `request_id ≤ -2` and that the
key is absent; the insertion itself is unconditional. -/
def RequestManager.Add {α : Type} (m : RequestManager α) (id : Int) (e : α) :
    RequestManager α :=
  if (m.map.lookup id).isSome then m else ⟨(id, e) :: m.map⟩

/-- `RequestManager::Remove`: early-returns (no-op) when `request_id > -2`;
otherwise erases the entry. -/
def RequestManager.Remove {α : Type} (m : RequestManager α) (id : Int) :
    RequestManager α :=
  if id > kInitialRequestID then m
  else ⟨m.map.filter (fun p => p.1 != id)⟩

/-- The `DCHECK(it != map_.end())` contract of `RequestManager::Remove`: when
the id is at or below the boundary, the entry must be present.  Ids above the
boundary take the early return, so the assertion branch is never reached for
them. -/
def RequestManager.RemoveOk {α : Type} (m : RequestManager α) (id : Int) : Prop :=
  id > kInitialRequestID ∨ (m.map.lookup id).isSome

instance {α : Type} (m : RequestManager α) (id : Int) :
    Decidable (m.RemoveOk id) := by
  unfold RequestManager.RemoveOk; infer_instance

/-- `RequestManager::Get`: returns `none` for ids above the boundary,
otherwise the looked-up entry. -/
def RequestManager.Get {α : Type} (m : RequestManager α) (id : Int) : Option α :=
  if id > kInitialRequestID then none
  else m.map.lookup id

/-! Registry operation traces, for the registry invariant claim. -/

/-- An operation applied to the registry. -/
inductive RMOp (α : Type) where
  | add (id : Int) (e : α)
  | remove (id : Int)
deriving DecidableEq

/-- Apply one registry operation. -/
def applyRMOp {α : Type} (m : RequestManager α) : RMOp α → RequestManager α
  | .add id e => m.Add id e
  | .remove id => m.Remove id

/-- Run a list of registry operations from the empty registry. -/
def runRM {α : Type} (ops : List (RMOp α)) : RequestManager α :=
  ops.foldl applyRMOp RequestManager.empty

/-- `addedActive ops id b` folds over the trace tracking whether `id` is
present: an `add id` makes it present; a `remove id` with `id` at or below
the boundary makes it absent (removes above the boundary are no-ops). -/
def addedActive {α : Type} (id : Int) (ops : List (RMOp α)) (b : Bool) : Bool :=
  match ops with
  | [] => b
  | .add i _ :: rest =>
      addedActive id rest (if i == id then true else b)
  | .remove i :: rest =>
      addedActive id rest (if i == id && !(decide (i > kInitialRequestID))
                           then false else b)

/-! ## Request / response data model -/

/-- `CefURLRequest::Status` values used in this translation unit. -/
inductive Status where
  | urIOPending
  | urSuccess
  | urFailed
  | urCanceled
deriving DecidableEq

/-- Response headers as observed by this code: the parsed HTTP status code
(`HttpResponseHeaders::response_code`, read back through
`CefResponseImpl::GetStatus`) and `GetContentLength` / `content_length`
(-1 when unknown). -/
structure Headers where
  statusCode : Int
  contentLength : Int
deriving DecidableEq

/-- One `network::DataElement` of the request body.  For a `kBytes` element,
`data` is the full buffer (`bytes()`, `length() = data.length`) and `off` is
`offset()`.  For a `kFile` element, `ext` is `path().Extension()` (leading
period included, empty when the path has no extension).  `other` stands for
any element kind besides file and bytes. -/
inductive Element where
  | file (path : String) (ext : String)
  | bytes (data : String) (off : Nat)
  | other
deriving DecidableEq

/-- The `UR_FLAG_*` bits consulted by this translation unit. -/
structure Flags where
  allowStoredCredentials : Bool
  stopOnRedirect : Bool
  reportUploadProgress : Bool
  noDownloadData : Bool
  noRetryOn5xx : Bool
deriving DecidableEq

/-- The request descriptor (`CefRequestImpl`) fields this code reads or
writes: URL, method, the Content-Type request header (if present), the post
body elements (if a body is present), and the behavioural flags. -/
structure RequestData where
  url : String
  method : String
  contentType : Option String
  body : Option (List Element)
  flags : Flags
deriving DecidableEq

/-- The body attached to the `SimpleURLLoader`: `AttachFileForUpload` or
`AttachStringForUpload`, with the content type passed alongside. -/
inductive Upload where
  | fileUpload (path : String) (contentType : String)
  | stringUpload (data : String) (contentType : String)
deriving DecidableEq

/-- Which fetch entry point was chosen: `DownloadHeadersOnly` or
`DownloadAsStream`. -/
inductive FetchMode where
  | headersOnly
  | stream
deriving DecidableEq

/-- The response record (`CefResponseImpl`) fields this code writes: URL,
error code, and the response headers. -/
structure ResponseRecord where
  url : String
  error : Int
  headers : Option Headers
deriving DecidableEq

/-- `CefResponseImpl::GetStatus`: the HTTP status code, 0 before any headers
have been stored. -/
def ResponseRecord.getStatus (r : ResponseRecord) : Int :=
  (r.headers.map Headers.statusCode).getD 0

/-- A client callback observed by the `CefURLRequestClient`. -/
inductive Event where
  | uploadProgress (position total : Int)
  | downloadProgress (current total : Int)
  | downloadData (size : Nat)
  | requestComplete
deriving DecidableEq

/-- Recognizer for `OnRequestComplete` events. -/
def isComplete : Event → Bool
  | .requestComplete => true
  | _ => false

/-- Recognizer for `OnUploadProgress` events. -/
def isUpload : Event → Bool
  | .uploadProgress _ _ => true
  | _ => false

/-- Recognizer for `OnDownloadProgress` events. -/
def isDP : Event → Bool
  | .downloadProgress _ _ => true
  | _ => false

/-- Recognizer for `OnDownloadData` events. -/
def isData : Event → Bool
  | .downloadData _ => true
  | _ => false

/-- Number of `OnRequestComplete` callbacks in a trace. -/
def nComplete (evs : List Event) : Nat := evs.countP (fun e => isComplete e)

/-- Number of `OnUploadProgress` callbacks in a trace. -/
def nUpload (evs : List Event) : Nat := evs.countP (fun e => isUpload e)

/-- Number of `OnDownloadProgress` callbacks in a trace. -/
def nDP (evs : List Event) : Nat := evs.countP (fun e => isDP e)

/-- Number of `OnDownloadData` callbacks in a trace. -/
def nData (evs : List Event) : Nat := evs.countP (fun e => isData e)

/-! ## CefBrowserURLRequest::Context state

One record per live `Context` object.  `urlRequestAlive` is the null test on
`url_request_` (cleared by `Cleanup`); `clientAlive` likewise for `client_`.
`rrMethod` is `resource_request->method` after transport configuration,
`upload` the body attached to the loader, and `fetchMode` the chosen fetch
entry point (all `none` before `ContinueOnOriginatingThread` runs).
`finCount` is a ghost counter of completion-path response finalization
writes: it is incremented exactly where the source writes the terminal
error/URL/cached values into the response record (the `status_ ==
UR_IO_PENDING` block of `OnComplete`, and the `SetError(ERR_ABORTED)` write
in `Cancel`). -/
structure Ctx where
  urlRequestAlive : Bool
  clientAlive : Bool
  req : RequestData
  status : Status
  resp : ResponseRecord
  responseWasCached : Bool
  uploadDataSize : Int
  downloadDataSize : Int
  gotUploadProgressComplete : Bool
  cleanupImmediately : Bool
  requestId : Int
  registry : RequestManager Unit
  hasLoader : Bool
  rrMethod : Option String
  upload : Option Upload
  fetchMode : Option FetchMode
  taskPosted : Bool
  finCount : Nat
deriving DecidableEq

/-- A freshly constructed `Context` (member initializers at declaration),
over a given request descriptor and the current state of the process-wide
registry. -/
def initCtx (req : RequestData) (m : RequestManager Unit) : Ctx :=
  { urlRequestAlive := true
    clientAlive := true
    req := req
    status := .urIOPending
    resp := { url := "", error := 0, headers := none }
    responseWasCached := false
    uploadDataSize := 0
    downloadDataSize := -1
    gotUploadProgressComplete := false
    cleanupImmediately := false
    requestId := 0
    registry := m
    hasLoader := false
    rrMethod := none
    upload := none
    fetchMode := none
    taskPosted := false
    finCount := 0 }

/-! ## Context operations -/

/-- `Context::Start`: validates the URL (`GURL::is_valid`, abstracted as the
`isValid` parameter) and on success posts the coordinating-thread task,
returning `true`; on an invalid URL returns `false` having done nothing. -/
def Start (isValid : String → Bool) (c : Ctx) : Bool × Ctx :=
  if isValid c.req.url then (true, { c with taskPosted := true })
  else (false, c)

/-- `Context::Cleanup`: removes the registry entry for `request_id_`,
releases the client and context references, releases the loader, and clears
`url_request_`. -/
def Cleanup (c : Ctx) : Ctx :=
  { c with registry := c.registry.Remove c.requestId
           clientAlive := false
           urlRequestAlive := false }

/-- `Context::NotifyUploadProgressIfNecessary`: if a 100%-sent notification
was never observed and an upload size was recorded, synthesize one. -/
def NotifyUploadProgressIfNecessary (c : Ctx) : Ctx × List Event :=
  if !c.gotUploadProgressComplete && decide (c.uploadDataSize > 0) then
    ({ c with gotUploadProgressComplete := true },
     [.uploadProgress c.uploadDataSize c.uploadDataSize])
  else (c, [])

/-- `Context::OnComplete`: no-op after teardown; otherwise, if still pending,
transitions to SUCCESS/FAILED and finalizes the response record from the
loader's observables (`GetFinalURL`, `NetError`, `LoadedFromCache`, passed
here as parameters); on success synthesizes the final upload notification if
needed; always notifies `OnRequestComplete` and tears down. -/
def OnComplete (c : Ctx) (success : Bool) (finalURL : String) (netError : Int)
    (fromCache : Bool) : Ctx × List Event :=
  if !c.urlRequestAlive then (c, [])
  else
    let c1 :=
      if c.status = Status.urIOPending then
        { c with status := if success then .urSuccess else .urFailed
                 resp := { c.resp with url := finalURL, error := netError }
                 responseWasCached := fromCache
                 finCount := c.finCount + 1 }
      else c
    let p := if success then NotifyUploadProgressIfNecessary c1 else (c1, [])
    (Cleanup p.1, p.2 ++ [.requestComplete])

/-- `Context::Cancel`: no-op after teardown; otherwise transitions to
CANCELED, writes `ERR_ABORTED` into the response record, marks for immediate
cleanup and runs the `OnComplete(false)` path (whose pending block is then
skipped, so the loader observables are not consulted). -/
def Cancel (c : Ctx) : Ctx × List Event :=
  if !c.urlRequestAlive then (c, [])
  else
    OnComplete
      { c with status := .urCanceled
               resp := { c.resp with error := ERR_ABORTED }
               cleanupImmediately := true
               finCount := c.finCount + 1 }
      false "" 0 false

/-- `Context::OnDownloadProgress`: early-out when the response record has no
HTTP status yet; otherwise synthesize the final upload notification if
needed, then forward `current` / `download_data_size_` to the client. -/
def OnDownloadProgress (c : Ctx) (current : Int) : Ctx × List Event :=
  if c.resp.getStatus = 0 then (c, [])
  else
    let p := NotifyUploadProgressIfNecessary c
    (p.1, p.2 ++ [.downloadProgress current c.downloadDataSize])

/-- `Context::OnHeadersOnly`: stores the headers; for non-HEAD methods
records the expected download size from `GetContentLength` and emits a
zero-progress download notification; then marks for immediate cleanup and
completes with success. -/
def OnHeadersOnly (c : Ctx) (h : Headers) (finalURL : String) (netError : Int)
    (fromCache : Bool) : Ctx × List Event :=
  let c1 := { c with resp := { c.resp with headers := some h } }
  let p :=
    if c1.req.method ≠ "HEAD" then
      OnDownloadProgress { c1 with downloadDataSize := h.contentLength } 0
    else (c1, [])
  let q := OnComplete { p.1 with cleanupImmediately := true }
      true finalURL netError fromCache
  (q.1, p.2 ++ q.2)

/-- `Context::OnRedirect`: writes the redirect target URL and the redirect
response's headers into the response record, then cancels (the redirect is
never followed). -/
def OnRedirect (c : Ctx) (newURL : String) (h : Headers) : Ctx × List Event :=
  Cancel { c with resp := { c.resp with url := newURL, headers := some h } }

/-- `Context::OnResponseStarted`: records the final URL and headers and the
expected download size (`content_length`).  No client callback fires here. -/
def OnResponseStarted (c : Ctx) (finalURL : String) (h : Headers) : Ctx :=
  { c with resp := { c.resp with url := finalURL, headers := some h }
           downloadDataSize := h.contentLength }

/-- `Context::OnUploadProgress`: records the expected total, marks the
100%-sent notification as observed when `position == total`, and forwards to
the client. -/
def OnUploadProgress (c : Ctx) (position total : Int) : Ctx × List Event :=
  ({ c with uploadDataSize := total
            gotUploadProgressComplete :=
              if position = total then true else c.gotUploadProgressComplete },
   [.uploadProgress position total])

/-- `Context::OnDataReceived`: forwards the chunk to the client's
download-data callback (and signals resumption to the transport). -/
def OnDataReceived (c : Ctx) (size : Nat) : Ctx × List Event :=
  (c, [.downloadData size])

/-- `Context::ContinueOnOriginatingThread`: the transport-configuration step.
Returns unchanged if the request was already torn down; cancels if factory
resolution failed.  Otherwise: rewrites GET/HEAD to POST when a body is
present (on both the transport request and the descriptor), reads the
Content-Type header, creates the loader, records the allocated id and
registers in the registry, attaches a supported single-element body (file or
bytes, defaulting the content type), records the expected upload size when
upload progress reporting was requested, and selects the fetch entry point.
`mime` abstracts `net::GetMimeTypeFromExtension`. -/
def ContinueOnOriginatingThread (mime : String → Option String) (c : Ctx)
    (requestId : Int) (factoryOk : Bool) : Ctx × List Event :=
  if !c.urlRequestAlive then (c, [])
  else if !factoryOk then Cancel c
  else
    let hasBody := c.req.body.isSome
    let method0 := c.req.method
    let method1 :=
      if hasBody && (method0 == "GET" || method0 == "HEAD") then "POST"
      else method0
    let c1 :=
      if hasBody && (method0 == "GET" || method0 == "HEAD") then
        { c with req := { c.req with method := "POST" } }
      else c
    let contentType0 := if hasBody then c1.req.contentType.getD "" else ""
    let c2 := { c1 with hasLoader := true
                        rrMethod := some method1
                        requestId := requestId
                        registry := c1.registry.Add requestId () }
    let c3 :=
      match c2.req.body with
      | some [Element.file path ext] =>
          let ct :=
            if contentType0.isEmpty && !ext.isEmpty then
              (mime (ext.drop 1)).getD ""
            else contentType0
          { c2 with upload := some (.fileUpload path ct) }
      | some [Element.bytes data off] =>
          let ct :=
            if contentType0.isEmpty then kContentTypeApplicationFormURLEncoded
            else contentType0
          let c2b := { c2 with upload := some (.stringUpload (data.drop off) ct) }
          if c2.req.flags.reportUploadProgress then
            { c2b with uploadDataSize := (data.length : Int) - (off : Int) }
          else c2b
      | _ => c2
    let fm :=
      if c3.req.flags.noDownloadData || method1 == "HEAD" then
        FetchMode.headersOnly
      else FetchMode.stream
    ({ c3 with fetchMode := some fm }, [])

/-! ## Operation traces over a Context

The loader and the public handle drive the `Context` through the entry points
above.  `Op` lists the entry points reachable after `Start`; external inputs
carried by each call (headers, redirect target, loader observables) are
constructor arguments. -/

/-- One invocation of a `Context` entry point. -/
inductive Op where
  | cancel
  | onHeadersOnly (h : Headers) (finalURL : String) (netError : Int)
      (fromCache : Bool)
  | onRedirect (newURL : String) (h : Headers)
  | onResponseStarted (finalURL : String) (h : Headers)
  | onUploadProgress (position total : Int)
  | onDownloadProgress (current : Int)
  | onDataReceived (size : Nat)
  | onComplete (success : Bool) (finalURL : String) (netError : Int)
      (fromCache : Bool)
  | onRetry
  | continueOriginating (requestId : Int) (factoryOk : Bool)

/-- Dispatch one operation to the corresponding `Context` method. -/
def step (mime : String → Option String) (c : Ctx) : Op → Ctx × List Event
  | .cancel => Cancel c
  | .onHeadersOnly h u e k => OnHeadersOnly c h u e k
  | .onRedirect u h => OnRedirect c u h
  | .onResponseStarted u h => (OnResponseStarted c u h, [])
  | .onUploadProgress p t => OnUploadProgress c p t
  | .onDownloadProgress cur => OnDownloadProgress c cur
  | .onDataReceived n => OnDataReceived c n
  | .onComplete s u e k => OnComplete c s u e k
  | .onRetry => (c, [])
  | .continueOriginating rid ok => ContinueOnOriginatingThread mime c rid ok

/-- The `DCHECK`ed precondition of each entry point: the loader-driven
callbacks require a still-pending status (they are delivered through weak
pointers and a live loader, both gone after teardown); `Cancel`,
`OnComplete` and `ContinueOnOriginatingThread` guard at runtime and may be
invoked in any state.  `OnRedirect` additionally requires that the
stop-on-redirect flag was set, since the redirect callback is only installed
then. -/
def preB (c : Ctx) : Op → Bool
  | .cancel => true
  | .onComplete _ _ _ _ => true
  | .continueOriginating _ _ => true
  | .onRedirect _ _ =>
      decide (c.status = Status.urIOPending) && c.req.flags.stopOnRedirect
  | _ => decide (c.status = Status.urIOPending)

/-- Run a list of operations, accumulating the emitted client callbacks. -/
def runOps (mime : String → Option String) (c : Ctx) :
    List Op → Ctx × List Event
  | [] => (c, [])
  | op :: ops =>
      let p := step mime c op
      let q := runOps mime p.1 ops
      (q.1, p.2 ++ q.2)

/-- A well-formed run: every operation's `DCHECK`ed precondition holds at
the state where it is invoked. -/
def WFRunB (mime : String → Option String) (c : Ctx) : List Op → Bool
  | [] => true
  | op :: ops => preB c op && WFRunB mime (step mime c op).1 ops

/-- The reachable-state invariant: `url_request_` is non-null exactly while
the status is still pending, and the ghost finalization counter is 0 while
pending and 1 once terminal. -/
def Good (c : Ctx) : Bool :=
  (c.urlRequestAlive == decide (c.status = Status.urIOPending))
  && (c.finCount == if c.status = Status.urIOPending then 0 else 1)

theorem initCtx_good (req : RequestData) (m : RequestManager Unit) :
    Good (initCtx req m) = true := by
  simp [Good, initCtx]

/-! ## Component lemmas -/

theorem nComplete_nil : nComplete [] = 0 := rfl

theorem nComplete_append (l1 l2 : List Event) :
    nComplete (l1 ++ l2) = nComplete l1 + nComplete l2 :=
  List.countP_append _ _ _

theorem Cleanup_status (c : Ctx) : (Cleanup c).status = c.status := rfl

theorem Cleanup_alive (c : Ctx) : (Cleanup c).urlRequestAlive = false := rfl

theorem Cleanup_finCount (c : Ctx) : (Cleanup c).finCount = c.finCount := rfl

theorem Cleanup_resp (c : Ctx) : (Cleanup c).resp = c.resp := rfl

theorem Notify_spec (c : Ctx) :
    (NotifyUploadProgressIfNecessary c).1.status = c.status
    ∧ (NotifyUploadProgressIfNecessary c).1.urlRequestAlive = c.urlRequestAlive
    ∧ (NotifyUploadProgressIfNecessary c).1.finCount = c.finCount
    ∧ (NotifyUploadProgressIfNecessary c).1.resp = c.resp
    ∧ (NotifyUploadProgressIfNecessary c).1.responseWasCached = c.responseWasCached
    ∧ nComplete (NotifyUploadProgressIfNecessary c).2 = 0 := by
  unfold NotifyUploadProgressIfNecessary
  split <;> simp [nComplete, isComplete]

theorem OnComplete_dead (c : Ctx) (s : Bool) (u : String) (e : Int) (k : Bool)
    (h : c.urlRequestAlive = false) : OnComplete c s u e k = (c, []) := by
  simp [OnComplete, h]

theorem OnComplete_pending (c : Ctx) (s : Bool) (u : String) (e : Int) (k : Bool)
    (ha : c.urlRequestAlive = true) (hs : c.status = Status.urIOPending) :
    (OnComplete c s u e k).1.status
        = (if s then Status.urSuccess else Status.urFailed)
    ∧ (OnComplete c s u e k).1.urlRequestAlive = false
    ∧ (OnComplete c s u e k).1.finCount = c.finCount + 1
    ∧ nComplete (OnComplete c s u e k).2 = 1 := by
  unfold OnComplete
  simp only [ha, hs]
  cases s
  · simp [NotifyUploadProgressIfNecessary, Cleanup, nComplete, isComplete]
  · simp [NotifyUploadProgressIfNecessary, Cleanup, nComplete, isComplete]
    split
    · simp [isComplete]
    · simp [isComplete]

theorem OnComplete_terminal (c : Ctx) (u : String) (e : Int) (k : Bool)
    (ha : c.urlRequestAlive = true) (hs : ¬c.status = Status.urIOPending) :
    OnComplete c false u e k = (Cleanup c, [.requestComplete]) := by
  simp [OnComplete, ha, hs]

theorem Cancel_dead (c : Ctx) (h : c.urlRequestAlive = false) :
    Cancel c = (c, []) := by
  simp [Cancel, h]

theorem Cancel_alive (c : Ctx) (ha : c.urlRequestAlive = true) :
    Cancel c =
      (Cleanup
        { c with status := .urCanceled
                 resp := { c.resp with error := ERR_ABORTED }
                 cleanupImmediately := true
                 finCount := c.finCount + 1 },
       [.requestComplete]) := by
  rw [Cancel]
  simp only [ha]
  rw [OnComplete_terminal]
  · rfl
  · rfl
  · simp

theorem OnDownloadProgress_spec (c : Ctx) (cur : Int) :
    (OnDownloadProgress c cur).1.status = c.status
    ∧ (OnDownloadProgress c cur).1.urlRequestAlive = c.urlRequestAlive
    ∧ (OnDownloadProgress c cur).1.finCount = c.finCount
    ∧ (OnDownloadProgress c cur).1.resp = c.resp
    ∧ nComplete (OnDownloadProgress c cur).2 = 0 := by
  unfold OnDownloadProgress
  split
  · simp [nComplete]
  · have h := Notify_spec c
    simp [nComplete_append, nComplete, isComplete, h.1, h.2.1, h.2.2.1, h.2.2.2.1]
    have := h.2.2.2.2.2
    simpa [nComplete] using this

theorem continue_config_spec (mime : String → Option String) (c : Ctx)
    (rid : Int) (ha : c.urlRequestAlive = true) :
    (ContinueOnOriginatingThread mime c rid true).1.status = c.status
    ∧ (ContinueOnOriginatingThread mime c rid true).1.urlRequestAlive = true
    ∧ (ContinueOnOriginatingThread mime c rid true).1.finCount = c.finCount
    ∧ (ContinueOnOriginatingThread mime c rid true).2 = [] := by
  unfold ContinueOnOriginatingThread
  simp only [ha, Bool.not_true]
  split
  · simp_all
  · split <;> split <;> (try split) <;> simp_all

theorem OnHeadersOnly_spec (c : Ctx) (h : Headers) (u : String) (e : Int)
    (k : Bool) (ha : c.urlRequestAlive = true)
    (hs : c.status = Status.urIOPending) :
    (OnHeadersOnly c h u e k).1.status = Status.urSuccess
    ∧ (OnHeadersOnly c h u e k).1.urlRequestAlive = false
    ∧ (OnHeadersOnly c h u e k).1.finCount = c.finCount + 1
    ∧ nComplete (OnHeadersOnly c h u e k).2 = 1 := by
  simp only [OnHeadersOnly, OnDownloadProgress, NotifyUploadProgressIfNecessary,
    OnComplete, Cleanup, ResponseRecord.getStatus, ha, hs]
  split <;> (try split) <;> (try split) <;> (try split) <;> (try split) <;>
    (try split) <;> simp_all [nComplete, isComplete]

theorem OnRedirect_spec (c : Ctx) (u : String) (h : Headers)
    (ha : c.urlRequestAlive = true) (hs : c.status = Status.urIOPending) :
    (OnRedirect c u h).1.status = Status.urCanceled
    ∧ (OnRedirect c u h).1.urlRequestAlive = false
    ∧ (OnRedirect c u h).1.finCount = c.finCount + 1
    ∧ nComplete (OnRedirect c u h).2 = 1
    ∧ (OnRedirect c u h).1.resp.url = u
    ∧ (OnRedirect c u h).1.resp.headers = some h
    ∧ (OnRedirect c u h).1.resp.error = ERR_ABORTED := by
  simp only [OnRedirect, Cancel, OnComplete, Cleanup,
    NotifyUploadProgressIfNecessary, ha, hs]
  simp [nComplete, isComplete]

/-- Event-level characterization of `OnHeadersOnly` from a live pending
state: no download-data callback, exactly one completion, no
download-progress for HEAD, and for non-HEAD methods (with a parsed HTTP
status) the expected size is recorded and a single zero-progress
download notification precedes the completion callback. -/
theorem OnHeadersOnly_events (c : Ctx) (h : Headers) (u : String) (e : Int)
    (k : Bool) (ha : c.urlRequestAlive = true)
    (hs : c.status = Status.urIOPending) :
    nData (OnHeadersOnly c h u e k).2 = 0
    ∧ nComplete (OnHeadersOnly c h u e k).2 = 1
    ∧ (c.req.method = "HEAD" → nDP (OnHeadersOnly c h u e k).2 = 0)
    ∧ (¬c.req.method = "HEAD" → ¬h.statusCode = 0 →
        (OnHeadersOnly c h u e k).1.downloadDataSize = h.contentLength
        ∧ ∃ l1, (OnHeadersOnly c h u e k).2
              = l1 ++ [Event.downloadProgress 0 h.contentLength,
                       Event.requestComplete]
            ∧ nDP l1 = 0 ∧ nComplete l1 = 0) := by
  by_cases hhead : c.req.method = "HEAD"
  · simp [OnHeadersOnly, OnDownloadProgress, OnComplete,
      NotifyUploadProgressIfNecessary, Cleanup, ResponseRecord.getStatus,
      ha, hs, hhead]
    split <;> simp_all [nData, nComplete, nDP, isData, isComplete, isDP]
  · by_cases hsc : h.statusCode = 0
    · simp [OnHeadersOnly, OnDownloadProgress, OnComplete,
        NotifyUploadProgressIfNecessary, Cleanup, ResponseRecord.getStatus,
        ha, hs, hhead, hsc]
      split <;> simp_all [nData, nComplete, nDP, isData, isComplete, isDP]
    · simp [OnHeadersOnly, OnDownloadProgress, OnComplete,
        NotifyUploadProgressIfNecessary, Cleanup, ResponseRecord.getStatus,
        ha, hs, hhead, hsc]
      split
      next hni =>
        simp [OnComplete, Cleanup, NotifyUploadProgressIfNecessary,
          nData, nComplete, nDP, isData, isComplete, isDP, hhead, hsc]
        exact ⟨[Event.uploadProgress c.uploadDataSize c.uploadDataSize], rfl,
          by simp, by simp⟩
      next hni =>
        simp [OnComplete, Cleanup, NotifyUploadProgressIfNecessary,
          nData, nComplete, nDP, isData, isComplete, isDP, hhead, hsc, hni]

theorem continue_dead (mime : String → Option String) (c : Ctx) (rid : Int)
    (ok : Bool) (ha : c.urlRequestAlive = false) :
    ContinueOnOriginatingThread mime c rid ok = (c, []) := by
  simp [ContinueOnOriginatingThread, ha]

/-- The shape of the `step_spec` conclusion, proved once for the no-op
cases. -/
theorem step_spec_of_eq (mime : String → Option String) (c : Ctx) (op : Op)
    (hg : Good c = true) (hid : step mime c op = (c, [])) :
    Good (step mime c op).1 = true
    ∧ ((step mime c op).1.status ≠ c.status → c.status = Status.urIOPending)
    ∧ (¬c.status = Status.urIOPending → step mime c op = (c, []))
    ∧ nComplete (step mime c op).2
        = (if (step mime c op).1.status = c.status then 0 else 1) := by
  refine ⟨?_, ?_, fun _ => hid, ?_⟩ <;> rw [hid] <;> simp [hg, nComplete]

/-- The workhorse: every well-formed step from a reachable state preserves
the invariant; the status changes only away from PENDING; a step from a
terminal state is a no-op with no events; and a step emits exactly one
completion callback when it transitions and none otherwise. -/
theorem step_spec (mime : String → Option String) (c : Ctx) (op : Op)
    (hg : Good c = true) (hp : preB c op = true) :
    Good (step mime c op).1 = true
    ∧ ((step mime c op).1.status ≠ c.status → c.status = Status.urIOPending)
    ∧ (¬c.status = Status.urIOPending → step mime c op = (c, []))
    ∧ nComplete (step mime c op).2
        = (if (step mime c op).1.status = c.status then 0 else 1) := by
  have hg' := hg
  simp only [Good, Bool.and_eq_true, beq_iff_eq] at hg'
  obtain ⟨halive, hfin⟩ := hg'
  by_cases hs : c.status = Status.urIOPending
  · have ha : c.urlRequestAlive = true := by rw [halive]; simp [hs]
    have hf0 : c.finCount = 0 := by rw [hfin]; simp [hs]
    cases op with
    | cancel =>
        simp only [step, Cancel_alive c ha]
        refine ⟨?_, fun _ => hs, fun hc => absurd hs hc, ?_⟩
        · simp [Good, Cleanup, hf0]
        · simp [Cleanup, hs, nComplete, isComplete]
    | onHeadersOnly h u e k =>
        obtain ⟨d1, d2, d3, d4⟩ := OnHeadersOnly_spec c h u e k ha hs
        simp only [step]
        refine ⟨?_, fun _ => hs, fun hc => absurd hs hc, ?_⟩
        · simp [Good, d1, d2, d3, hf0]
        · simp [d4, d1, hs]
    | onRedirect u h =>
        obtain ⟨d1, d2, d3, d4, _⟩ := OnRedirect_spec c u h ha hs
        simp only [step]
        refine ⟨?_, fun _ => hs, fun hc => absurd hs hc, ?_⟩
        · simp [Good, d1, d2, d3, hf0]
        · simp [d4, d1, hs]
    | onResponseStarted u h =>
        simp only [step, OnResponseStarted]
        refine ⟨?_, fun _ => hs, fun hc => absurd hs hc, ?_⟩
        · simp [Good, hs, hf0, halive]
        · simp [nComplete]
    | onUploadProgress p t =>
        simp only [step, OnUploadProgress]
        refine ⟨?_, fun _ => hs, fun hc => absurd hs hc, ?_⟩
        · simp [Good, hs, hf0, halive]
        · simp [nComplete, isComplete]
    | onDownloadProgress cur =>
        obtain ⟨d1, d2, d3, d4, d5⟩ := OnDownloadProgress_spec c cur
        simp only [step]
        refine ⟨?_, fun _ => hs, fun hc => absurd hs hc, ?_⟩
        · simp [Good, d1, d2, d3, hs, hf0, halive]
        · simp [d5, d1]
    | onDataReceived n =>
        simp only [step, OnDataReceived]
        refine ⟨?_, fun _ => hs, fun hc => absurd hs hc, ?_⟩
        · exact hg
        · simp [nComplete, isComplete]
    | onComplete s u e k =>
        obtain ⟨d1, d2, d3, d4⟩ := OnComplete_pending c s u e k ha hs
        simp only [step]
        refine ⟨?_, fun _ => hs, fun hc => absurd hs hc, ?_⟩
        · cases s <;> simp_all [Good]
        · cases s <;> simp_all
    | onRetry =>
        exact step_spec_of_eq mime c .onRetry hg rfl
    | continueOriginating rid ok =>
        cases ok with
        | false =>
            have hc : step mime c (.continueOriginating rid false) = Cancel c := by
              simp [step, ContinueOnOriginatingThread, ha]
            rw [hc, Cancel_alive c ha]
            refine ⟨?_, fun _ => hs, fun hcn => absurd hs hcn, ?_⟩
            · simp [Good, Cleanup, hf0]
            · simp [Cleanup, hs, nComplete, isComplete]
        | true =>
            obtain ⟨d1, d2, d3, d4⟩ := continue_config_spec mime c rid ha
            simp only [step]
            refine ⟨?_, fun _ => hs, fun hc => absurd hs hc, ?_⟩
            · simp [Good, d1, d2, d3, hs, hf0]
            · simp [d4, d1, nComplete]
  · have ha : c.urlRequestAlive = false := by rw [halive]; simp [hs]
    cases op with
    | cancel => exact step_spec_of_eq mime c _ hg (Cancel_dead c ha)
    | onComplete s u e k =>
        exact step_spec_of_eq mime c _ hg (OnComplete_dead c s u e k ha)
    | continueOriginating rid ok =>
        exact step_spec_of_eq mime c _ hg (continue_dead mime c rid ok ha)
    | onHeadersOnly h u e k => simp [preB, hs] at hp
    | onRedirect u h => simp [preB, hs] at hp
    | onResponseStarted u h => simp [preB, hs] at hp
    | onUploadProgress p t => simp [preB, hs] at hp
    | onDownloadProgress cur => simp [preB, hs] at hp
    | onDataReceived n => simp [preB, hs] at hp
    | onRetry => simp [preB, hs] at hp

/-! ## Trace lemmas -/

theorem runOps_append (mime : String → Option String) (c : Ctx)
    (ops1 ops2 : List Op) :
    runOps mime c (ops1 ++ ops2)
      = ((runOps mime (runOps mime c ops1).1 ops2).1,
         (runOps mime c ops1).2
           ++ (runOps mime (runOps mime c ops1).1 ops2).2) := by
  induction ops1 generalizing c with
  | nil => simp [runOps]
  | cons op ops ih => simp [runOps, ih, List.append_assoc]

theorem WFRunB_append (mime : String → Option String) (c : Ctx)
    (ops1 ops2 : List Op) :
    WFRunB mime c (ops1 ++ ops2)
      = (WFRunB mime c ops1 && WFRunB mime (runOps mime c ops1).1 ops2) := by
  induction ops1 generalizing c with
  | nil => simp [WFRunB, runOps]
  | cons op ops ih => simp [WFRunB, runOps, ih, Bool.and_assoc]

/-- Once the status is terminal, any further well-formed run is a no-op and
emits no client callbacks. -/
theorem runOps_frozen (mime : String → Option String) :
    ∀ (ops : List Op) (c : Ctx), Good c = true → WFRunB mime c ops = true →
    ¬c.status = Status.urIOPending → runOps mime c ops = (c, []) := by
  intro ops
  induction ops with
  | nil => intro c _ _ _; rfl
  | cons op ops ih =>
      intro c hg hw hs
      simp only [WFRunB, Bool.and_eq_true] at hw
      obtain ⟨hp, hw'⟩ := hw
      have h3 := (step_spec mime c op hg hp).2.2.1 hs
      simp only [runOps]
      rw [h3] at hw' ⊢
      rw [ih c hg hw' hs]
      simp [h3]

/-- The reachable-state invariant is preserved by well-formed runs. -/
theorem run_good (mime : String → Option String) :
    ∀ (ops : List Op) (c : Ctx), Good c = true → WFRunB mime c ops = true →
    Good (runOps mime c ops).1 = true := by
  intro ops
  induction ops with
  | nil => intro c hg _; exact hg
  | cons op ops ih =>
      intro c hg hw
      simp only [WFRunB, Bool.and_eq_true] at hw
      obtain ⟨hp, hw'⟩ := hw
      simp only [runOps]
      exact ih _ (step_spec mime c op hg hp).1 hw'

/-- Starting from a pending state, a well-formed run emits exactly one
completion callback if it ends terminal and none if it is still pending. -/
theorem run_nComplete (mime : String → Option String) :
    ∀ (ops : List Op) (c : Ctx), Good c = true → WFRunB mime c ops = true →
    c.status = Status.urIOPending →
    nComplete (runOps mime c ops).2
      = (if (runOps mime c ops).1.status = Status.urIOPending then 0 else 1) := by
  intro ops
  induction ops with
  | nil => intro c _ _ hs; simp [runOps, nComplete, hs]
  | cons op ops ih =>
      intro c hg hw hs
      simp only [WFRunB, Bool.and_eq_true] at hw
      obtain ⟨hp, hw'⟩ := hw
      obtain ⟨g1, _, _, g4⟩ := step_spec mime c op hg hp
      simp only [runOps, nComplete_append]
      by_cases he : (step mime c op).1.status = c.status
      · rw [if_pos he] at g4
        have hps : (step mime c op).1.status = Status.urIOPending := by
          rw [he]; exact hs
        rw [g4, ih _ g1 hw' hps]
        simp
      · rw [if_neg he] at g4
        have hterm : ¬(step mime c op).1.status = Status.urIOPending := by
          intro hh
          exact he (by rw [hh, hs])
        have hfr := runOps_frozen mime ops _ g1 hw' hterm
        simp only [hfr, nComplete_nil, Nat.add_zero, if_neg hterm]
        exact g4

theorem nUpload_append (l1 l2 : List Event) :
    nUpload (l1 ++ l2) = nUpload l1 + nUpload l2 :=
  List.countP_append _ _ _

theorem nUpload_cons (a : Event) (l : List Event) :
    nUpload (a :: l) = nUpload l + (if isUpload a then 1 else 0) :=
  List.countP_cons _ _ _

theorem nComplete_cons (a : Event) (l : List Event) :
    nComplete (a :: l) = nComplete l + (if isComplete a then 1 else 0) :=
  List.countP_cons _ _ _

theorem nDP_cons (a : Event) (l : List Event) :
    nDP (a :: l) = nDP l + (if isDP a then 1 else 0) :=
  List.countP_cons _ _ _

/-- Ops a transport can deliver between configuration and completion when no
timer-driven upload notification fires. -/
def midOp : Op → Bool
  | .onResponseStarted _ _ => true
  | .onDownloadProgress _ => true
  | .onDataReceived _ => true
  | _ => false

theorem runOps_cons (mime : String → Option String) (c : Ctx) (op : Op)
    (ops : List Op) :
    runOps mime c (op :: ops)
      = ((runOps mime (step mime c op).1 ops).1,
         (step mime c op).2 ++ (runOps mime (step mime c op).1 ops).2) := rfl

/-- Core of the synthesized-upload-notification property: from a live
pending state expecting `sz > 0` uploaded bytes, any run of
response/download events followed by a successful completion emits exactly
one 100% upload notification when none was observed yet — before every
download-progress notification and before completion — and none at all when
one was already observed. -/
theorem mid_run_upload (mime : String → Option String) (sz : Int)
    (hsz : 0 < sz) :
    ∀ (mid : List Op) (c : Ctx), mid.all midOp = true →
    c.urlRequestAlive = true → c.status = Status.urIOPending →
    c.uploadDataSize = sz →
    ((c.gotUploadProgressComplete = false →
       ∀ u e k, ∃ l1 l2,
          (runOps mime c (mid ++ [Op.onComplete true u e k])).2
            = l1 ++ Event.uploadProgress sz sz :: l2
          ∧ nUpload l1 = 0 ∧ nUpload l2 = 0 ∧ nComplete l1 = 0 ∧ nDP l1 = 0)
     ∧ (c.gotUploadProgressComplete = true →
       ∀ u e k, nUpload (runOps mime c (mid ++ [Op.onComplete true u e k])).2
         = 0)) := by
  intro mid
  induction mid with
  | nil =>
      intro c _ ha hs hu
      constructor
      · intro hg u e k
        refine ⟨[], [Event.requestComplete], ?_, ?_, ?_, ?_, ?_⟩ <;>
          simp [runOps, step, OnComplete, Cleanup,
            NotifyUploadProgressIfNecessary, ha, hs, hu, hg, hsz,
            nUpload, nComplete, nDP, isUpload, isComplete, isDP]
      · intro hg u e k
        simp [runOps, step, OnComplete, Cleanup,
          NotifyUploadProgressIfNecessary, ha, hs, hu, hg, hsz,
          nUpload, nComplete, isUpload, isComplete]
  | cons op mid ih =>
      intro c hall ha hs hu
      simp only [List.all_cons, Bool.and_eq_true] at hall
      obtain ⟨hop, hall⟩ := hall
      cases op with
      | onResponseStarted u0 h0 =>
          have hstep : step mime c (.onResponseStarted u0 h0)
              = (OnResponseStarted c u0 h0, []) := rfl
          have hth := ih (OnResponseStarted c u0 h0) hall ha hs hu
          constructor
          · intro hg u e k
            obtain ⟨l1, l2, heq, h1, h2, h3, h4⟩ := hth.1 hg u e k
            refine ⟨l1, l2, ?_, h1, h2, h3, h4⟩
            rw [List.cons_append, runOps_cons]
            simp only [hstep, List.nil_append]
            exact heq
          · intro hg u e k
            have h0' := hth.2 hg u e k
            rw [List.cons_append, runOps_cons]
            simp only [hstep, List.nil_append]
            exact h0'
      | onDataReceived n =>
          have hstep : step mime c (.onDataReceived n)
              = (c, [Event.downloadData n]) := rfl
          have hth := ih c hall ha hs hu
          constructor
          · intro hg u e k
            obtain ⟨l1, l2, heq, h1, h2, h3, h4⟩ := hth.1 hg u e k
            refine ⟨Event.downloadData n :: l1, l2, ?_, ?_, h2, ?_, ?_⟩
            · rw [List.cons_append, runOps_cons]
              simp only [hstep]
              simp [heq]
            · simp [nUpload_cons, isUpload, h1]
            · simp [nComplete_cons, isComplete, h3]
            · simp [nDP_cons, isDP, h4]
          · intro hg u e k
            have h0' := hth.2 hg u e k
            rw [List.cons_append, runOps_cons]
            simp only [hstep]
            rw [nUpload_append, h0']
            rfl
      | onDownloadProgress cur =>
          by_cases hst : c.resp.getStatus = 0
          · have hstep : step mime c (.onDownloadProgress cur) = (c, []) := by
              simp [step, OnDownloadProgress, hst]
            have hth := ih c hall ha hs hu
            constructor
            · intro hg u e k
              obtain ⟨l1, l2, heq, h1, h2, h3, h4⟩ := hth.1 hg u e k
              refine ⟨l1, l2, ?_, h1, h2, h3, h4⟩
              rw [List.cons_append, runOps_cons]
              simp only [hstep, List.nil_append]
              exact heq
            · intro hg u e k
              have h0' := hth.2 hg u e k
              rw [List.cons_append, runOps_cons]
              simp only [hstep, List.nil_append]
              exact h0'
          · constructor
            · intro hg u e k
              have hstep : step mime c (.onDownloadProgress cur)
                  = ({ c with gotUploadProgressComplete := true },
                     [Event.uploadProgress sz sz,
                      Event.downloadProgress cur c.downloadDataSize]) := by
                simp [step, OnDownloadProgress, hst,
                  NotifyUploadProgressIfNecessary, hg, hu, hsz]
              have h0' :=
                (ih { c with gotUploadProgressComplete := true }
                  hall ha hs hu).2 rfl u e k
              refine ⟨[], Event.downloadProgress cur c.downloadDataSize
                  :: (runOps mime { c with gotUploadProgressComplete := true }
                      (mid ++ [Op.onComplete true u e k])).2,
                  ?_, ?_, ?_, ?_, ?_⟩
              · rw [List.cons_append, runOps_cons]
                simp only [hstep]
                simp
              · simp [nUpload]
              · simp [nUpload_cons, isUpload, h0']
              · simp [nComplete]
              · simp [nDP]
            · intro hg u e k
              have hstep : step mime c (.onDownloadProgress cur)
                  = (c, [Event.downloadProgress cur c.downloadDataSize]) := by
                simp [step, OnDownloadProgress, hst,
                  NotifyUploadProgressIfNecessary, hg]
              have h0' := (ih c hall ha hs hu).2 hg u e k
              rw [List.cons_append, runOps_cons]
              simp only [hstep]
              rw [nUpload_append, h0']
              rfl
      | cancel => simp [midOp] at hop
      | onHeadersOnly h0 u0 e0 k0 => simp [midOp] at hop
      | onRedirect u0 h0 => simp [midOp] at hop
      | onUploadProgress p0 t0 => simp [midOp] at hop
      | onComplete s0 u0 e0 k0 => simp [midOp] at hop
      | onRetry => simp [midOp] at hop
      | continueOriginating r0 o0 => simp [midOp] at hop

/-! ## Registry lemmas -/

theorem lookup_filter_self {α : Type} (l : List (Int × α)) (id : Int) :
    (l.filter (fun p => p.1 != id)).lookup id = none := by
  induction l with
  | nil => rfl
  | cons p l ih =>
      by_cases hp : p.1 = id
      · simp [List.filter_cons, hp, ih]
      · have hq : (id == p.1) = false := by
          simp only [beq_eq_false_iff_ne, ne_eq]
          exact fun hc => hp hc.symm
        simp [List.filter_cons, hp, List.lookup, hq, ih, bne_iff_ne]

theorem lookup_filter_ne {α : Type} (l : List (Int × α)) (i id : Int)
    (h : ¬i = id) :
    (l.filter (fun p => p.1 != i)).lookup id = l.lookup id := by
  induction l with
  | nil => rfl
  | cons p l ih =>
      by_cases hp : p.1 = i
      · have hq : (id == p.1) = false := by
          simp only [beq_eq_false_iff_ne, ne_eq, hp]
          exact fun hc => h hc.symm
        have hqi : (id == i) = false := by
          simp only [beq_eq_false_iff_ne, ne_eq]
          exact fun hc => h hc.symm
        simp [List.filter_cons, hp, List.lookup, hq, hqi, ih]
      · cases hq : (id == p.1) <;>
          simp [List.filter_cons, hp, List.lookup, hq, ih, bne_iff_ne]

theorem Add_lookup_isSome {α : Type} (m : RequestManager α) (i : Int) (e : α)
    (id : Int) :
    ((m.Add i e).map.lookup id).isSome
      = (if i == id then true else (m.map.lookup id).isSome) := by
  unfold RequestManager.Add
  split
  case isTrue hpres =>
    by_cases hi : i = id
    · subst hi
      simp_all
    · simp [beq_iff_eq, hi]
  case isFalse hpres =>
    by_cases hi : i = id
    · subst hi
      simp [List.lookup]
    · have : ¬(id == i) = true := by
        simp [beq_iff_eq]
        exact fun hc => hi hc.symm
      simp [List.lookup, this, beq_iff_eq, hi]

theorem Remove_lookup_isSome {α : Type} (m : RequestManager α) (i id : Int) :
    ((m.Remove i).map.lookup id).isSome
      = (if i == id && !(decide (i > kInitialRequestID)) then false
         else (m.map.lookup id).isSome) := by
  unfold RequestManager.Remove
  split
  case isTrue hgt => simp [hgt]
  case isFalse hgt =>
    by_cases hi : i = id
    · subst hi
      simp [lookup_filter_self, hgt]
    · simp [lookup_filter_ne m.map i id hi, beq_iff_eq, hi]

/-- Presence in the registry after a trace is computed by `addedActive`. -/
theorem runRM_lookup {α : Type} :
    ∀ (ops : List (RMOp α)) (m : RequestManager α) (id : Int),
    ((ops.foldl applyRMOp m).map.lookup id).isSome
      = addedActive id ops ((m.map.lookup id).isSome) := by
  intro ops
  induction ops with
  | nil => intro m id; rfl
  | cons op rest ih =>
      intro m id
      cases op with
      | add i e =>
          simp only [List.foldl_cons, applyRMOp, addedActive]
          rw [ih, Add_lookup_isSome]
      | remove i =>
          simp only [List.foldl_cons, applyRMOp, addedActive]
          rw [ih, Remove_lookup_isSome]

/-! ## Sample data used by witnesses -/

/-- All behavioural flags clear. -/
def noFlags : Flags :=
  { allowStoredCredentials := false
    stopOnRedirect := false
    reportUploadProgress := false
    noDownloadData := false
    noRetryOn5xx := false }

/-- A plain GET request with no body. -/
def sampleReq : RequestData :=
  { url := "https://example.test/resource"
    method := "GET"
    contentType := none
    body := none
    flags := noFlags }

/-- A MIME database resolving nothing (the MIME lookup is only consulted for
file bodies with no Content-Type header). -/
def sampleMime : String → Option String := fun _ => none

/-! ## Claims -/

/-- C1: for every request, the lifecycle status leaves PENDING at most once,
transitioning to one of SUCCESS / FAILED / CANCELED, and never changes again
afterwards; the completion-path writes of the response record's final URL /
error code / cached flag (counted by the ghost `finCount`: the
`status_ == UR_IO_PENDING` block of `OnComplete` and the
`SetError(ERR_ABORTED)` write in `Cancel`) happen exactly once, at the step
that first leaves PENDING, and a later `OnComplete` finding the status
already terminal changes nothing at all (the whole state, response record
included, is frozen). -/
theorem C1_status_leaves_pending_once (mime : String → Option String)
    (req : RequestData) (m : RequestManager Unit) (ops1 ops2 : List Op)
    (hw : WFRunB mime (initCtx req m) (ops1 ++ ops2) = true) :
    ((runOps mime (initCtx req m) (ops1 ++ ops2)).1.finCount ≤ 1)
    ∧ ((runOps mime (initCtx req m) (ops1 ++ ops2)).1.finCount = 1
        ↔ ¬(runOps mime (initCtx req m) (ops1 ++ ops2)).1.status
              = Status.urIOPending)
    ∧ (¬(runOps mime (initCtx req m) ops1).1.status = Status.urIOPending →
        (runOps mime (initCtx req m) (ops1 ++ ops2)).1
          = (runOps mime (initCtx req m) ops1).1) := by
  have hg0 := initCtx_good req m
  rw [WFRunB_append, Bool.and_eq_true] at hw
  obtain ⟨hw1, hw2⟩ := hw
  have hwfull : WFRunB mime (initCtx req m) (ops1 ++ ops2) = true := by
    rw [WFRunB_append, Bool.and_eq_true]; exact ⟨hw1, hw2⟩
  have hgf := run_good mime (ops1 ++ ops2) (initCtx req m) hg0 hwfull
  simp only [Good, Bool.and_eq_true, beq_iff_eq] at hgf
  obtain ⟨_, hfin⟩ := hgf
  refine ⟨?_, ?_, ?_⟩
  · rw [hfin]; split <;> simp
  · rw [hfin]; constructor
    · intro h1 hpend
      rw [if_pos hpend] at h1
      exact absurd h1 (by simp)
    · intro hterm; rw [if_neg hterm]
  · intro hterm
    have hg1 := run_good mime ops1 (initCtx req m) hg0 hw1
    have hfr := runOps_frozen mime ops2 _ hg1 hw2 hterm
    rw [runOps_append, hfr]

/-- C2: for every started request, the client's `OnRequestComplete` callback
fires exactly once however the request terminates (it has fired exactly once
when the status is terminal and not at all while still pending); and once
the request has been torn down (`url_request_` cleared), a further `Cancel`
observably does nothing: same state (registry entry included) and no
callbacks. -/
theorem C2_single_completion (mime : String → Option String)
    (req : RequestData) (m : RequestManager Unit) (ops : List Op)
    (hw : WFRunB mime (initCtx req m) ops = true) :
    (nComplete (runOps mime (initCtx req m) ops).2
      = if (runOps mime (initCtx req m) ops).1.status = Status.urIOPending
        then 0 else 1)
    ∧ ((runOps mime (initCtx req m) ops).1.urlRequestAlive = false →
        Cancel (runOps mime (initCtx req m) ops).1
          = ((runOps mime (initCtx req m) ops).1, [])) := by
  refine ⟨?_, ?_⟩
  · exact run_nComplete mime ops _ (initCtx_good req m) hw rfl
  · intro hdead
    exact Cancel_dead _ hdead

/-- C3: for identifiers at or below the reserved boundary (-2), a registry
lookup finds an entry exactly when an `Add` for the id occurred with no
effective `Remove` of it since (`addedActive` folds the trace computing
exactly this); for identifiers strictly above the boundary, `Get` always
returns nothing and `Remove` is a no-op whatever the table contains. -/
theorem C3_registry_invariant (α : Type) (ops : List (RMOp α)) (id : Int) :
    (id ≤ kInitialRequestID →
      ((((runRM ops).Get id)).isSome = true ↔ addedActive id ops false = true))
    ∧ (id > kInitialRequestID →
        (runRM ops).Get id = none
        ∧ ∀ m : RequestManager α, m.Remove id = m) := by
  constructor
  · intro hle
    have hnotgt : ¬id > kInitialRequestID := by omega
    unfold RequestManager.Get runRM
    rw [if_neg hnotgt, runRM_lookup]
    simp [RequestManager.empty, List.lookup]
  · intro hgt
    refine ⟨?_, fun m => ?_⟩
    · simp [RequestManager.Get, hgt]
    · simp [RequestManager.Remove, hgt]

/-- C7: a redirect delivered while PENDING with stop-on-redirect requested
updates the response record's URL to the redirect target and its headers to
the redirect response's headers, transitions the status to CANCELED (never
SUCCESS or FAILED — the redirect is not followed), sets the response error
to ERR_ABORTED, and fires a single completion callback. -/
theorem C7_redirect_cancels (c : Ctx) (u : String) (h : Headers)
    (_hflag : c.req.flags.stopOnRedirect = true)
    (ha : c.urlRequestAlive = true) (hs : c.status = Status.urIOPending) :
    (OnRedirect c u h).1.status = Status.urCanceled
    ∧ (OnRedirect c u h).1.resp.url = u
    ∧ (OnRedirect c u h).1.resp.headers = some h
    ∧ (OnRedirect c u h).1.resp.error = ERR_ABORTED
    ∧ nComplete (OnRedirect c u h).2 = 1 := by
  obtain ⟨d1, _, _, d4, d5, d6, d7⟩ := OnRedirect_spec c u h ha hs
  exact ⟨d1, d5, d6, d7, d4⟩

/-- C8: starting a request whose URL is not well-formed fails synchronously:
`Start` returns false, the context is completely untouched (status still
PENDING, no coordinating-thread task posted), so no lifecycle callback can
ever fire for it. -/
theorem C8_invalid_url (isValid : String → Bool) (req : RequestData)
    (m : RequestManager Unit) (hv : isValid req.url = false) :
    Start isValid (initCtx req m) = (false, initCtx req m)
    ∧ (initCtx req m).status = Status.urIOPending
    ∧ (initCtx req m).taskPosted = false := by
  refine ⟨?_, rfl, rfl⟩
  simp [Start, initCtx, hv]

/-- C10: a context torn down before an identifier was allocated still holds
the initial `request_id_ = 0`; since 0 lies above the reserved boundary -2,
the registry `Remove` performed by `Cleanup` takes the benign early return:
its missing-entry assertion branch is unreachable (`RemoveOk` holds for any
table state) and the registry is left untouched. -/
theorem C10_unregistered_teardown (req : RequestData)
    (m : RequestManager Unit) :
    (initCtx req m).requestId = 0
    ∧ RequestManager.RemoveOk m (initCtx req m).requestId
    ∧ (Cancel (initCtx req m)).1.registry = m
    ∧ (Cancel (initCtx req m)).1.urlRequestAlive = false
    ∧ m.Remove 0 = m := by
  refine ⟨rfl, Or.inl (by norm_num [initCtx, kInitialRequestID]), ?_, ?_, ?_⟩
  · rw [Cancel_alive _ rfl]
    simp [Cleanup, initCtx, RequestManager.Remove, kInitialRequestID]
  · rw [Cancel_alive _ rfl]
    rfl
  · simp [RequestManager.Remove, kInitialRequestID]

/-! Witnesses -/

theorem C1_witness :
    WFRunB sampleMime (initCtx sampleReq RequestManager.empty)
        ([Op.cancel] ++ [Op.cancel]) = true
    ∧ ((runOps sampleMime (initCtx sampleReq RequestManager.empty)
          ([Op.cancel] ++ [Op.cancel])).1.finCount ≤ 1) :=
  ⟨by decide,
   (C1_status_leaves_pending_once sampleMime sampleReq RequestManager.empty
      [Op.cancel] [Op.cancel] (by decide)).1⟩

theorem C2_witness :
    WFRunB sampleMime (initCtx sampleReq RequestManager.empty) [Op.cancel]
        = true
    ∧ nComplete (runOps sampleMime (initCtx sampleReq RequestManager.empty)
          [Op.cancel]).2
        = if (runOps sampleMime (initCtx sampleReq RequestManager.empty)
              [Op.cancel]).1.status = Status.urIOPending then 0 else 1 :=
  ⟨by decide,
   (C2_single_completion sampleMime sampleReq RequestManager.empty [Op.cancel]
      (by decide)).1⟩

theorem C3_witness :
    (-3 : Int) ≤ kInitialRequestID
    ∧ ((((runRM [RMOp.add (-3) (), RMOp.remove (-3), RMOp.add (-3) ()]).Get
          (-3))).isSome = true
        ↔ addedActive (-3) [RMOp.add (-3) (), RMOp.remove (-3),
            RMOp.add (-3) ()] false = true) :=
  ⟨by norm_num [kInitialRequestID],
   (C3_registry_invariant Unit
      [RMOp.add (-3) (), RMOp.remove (-3), RMOp.add (-3) ()] (-3)).1
      (by norm_num [kInitialRequestID])⟩

theorem C7_witness :
    ((OnRedirect
        (initCtx { sampleReq with flags := { noFlags with stopOnRedirect := true } }
          RequestManager.empty)
        "https://example.test/other" { statusCode := 302, contentLength := 0 }).1.status
      = Status.urCanceled)
    ∧ ((OnRedirect
        (initCtx { sampleReq with flags := { noFlags with stopOnRedirect := true } }
          RequestManager.empty)
        "https://example.test/other" { statusCode := 302, contentLength := 0 }).1.resp.url
      = "https://example.test/other") :=
  ⟨(C7_redirect_cancels _ _ _ (by decide) rfl rfl).1,
   (C7_redirect_cancels _ _ _ (by decide) rfl rfl).2.1⟩

theorem C8_witness :
    Start (fun _ => false) (initCtx sampleReq RequestManager.empty)
      = (false, initCtx sampleReq RequestManager.empty) :=
  (C8_invalid_url (fun _ => false) sampleReq RequestManager.empty rfl).1

/-- C5: a request with a single byte-buffer body and method GET has, after
transport configuration, effective method POST on both the transport request
(`rrMethod`) and the request descriptor, and the body is attached as a
string upload (`AttachStringForUpload` over `bytes()+offset`,
`length()-offset`) whose content type defaults to
application/x-www-form-urlencoded whenever no Content-Type header was
supplied. -/
theorem C5_get_bytes_body (mime : String → Option String) (req : RequestData)
    (m : RequestManager Unit) (rid : Int) (data : String) (off : Nat)
    (hm : req.method = "GET")
    (hb : req.body = some [Element.bytes data off]) :
    (ContinueOnOriginatingThread mime (initCtx req m) rid true).1.rrMethod
        = some "POST"
    ∧ (ContinueOnOriginatingThread mime (initCtx req m) rid true).1.req.method
        = "POST"
    ∧ (ContinueOnOriginatingThread mime (initCtx req m) rid true).1.upload
        = some (.stringUpload (data.drop off)
            (if (req.contentType.getD "").isEmpty
             then kContentTypeApplicationFormURLEncoded
             else req.contentType.getD ""))
    ∧ (req.contentType = none →
        (ContinueOnOriginatingThread mime (initCtx req m) rid true).1.upload
          = some (.stringUpload (data.drop off)
              kContentTypeApplicationFormURLEncoded)) := by
  unfold ContinueOnOriginatingThread
  simp [initCtx, hm, hb]
  refine ⟨?_, ?_, ?_⟩ <;> split <;> simp_all <;>
    (intro hct h2; exact absurd h2 (by decide))

/-- C9: whenever the descriptor carries a body and the method is GET or
HEAD, the configuration step rewrites the method to POST (on the transport
request and the descriptor) before the body's shape is inspected — so the
rewrite also happens when the body is subsequently dropped as unsupported
(more than one element, or a single element of a kind other than file or
bytes), leaving a body-less POST. -/
theorem C9_rewrite_precedes_body_inspection (mime : String → Option String)
    (req : RequestData) (m : RequestManager Unit) (rid : Int)
    (elems : List Element)
    (hb : req.body = some elems)
    (hm : req.method = "GET" ∨ req.method = "HEAD") :
    (ContinueOnOriginatingThread mime (initCtx req m) rid true).1.rrMethod
        = some "POST"
    ∧ (ContinueOnOriginatingThread mime (initCtx req m) rid true).1.req.method
        = "POST"
    ∧ ((1 < elems.length ∨ elems = [Element.other]) →
        (ContinueOnOriginatingThread mime (initCtx req m) rid true).1.upload
          = none) := by
  have hmeq : (req.method == "GET" || req.method == "HEAD") = true := by
    rcases hm with hm | hm <;> simp [hm]
  unfold ContinueOnOriginatingThread
  refine ⟨?_, ?_, ?_⟩
  · rcases elems with _ | ⟨e, _ | ⟨e2, rest⟩⟩
    · simp [initCtx, hb, hmeq]
    · cases e with
      | file p ext => simp [initCtx, hb, hmeq]
      | bytes d o =>
          simp [initCtx, hb, hmeq]
          split <;> simp_all
      | other => simp [initCtx, hb, hmeq]
    · simp [initCtx, hb, hmeq]
  · rcases elems with _ | ⟨e, _ | ⟨e2, rest⟩⟩
    · simp [initCtx, hb, hmeq]
    · cases e with
      | file p ext => simp [initCtx, hb, hmeq]
      | bytes d o =>
          simp [initCtx, hb, hmeq]
          split <;> simp_all
      | other => simp [initCtx, hb, hmeq]
    · simp [initCtx, hb, hmeq]
  · intro hun
    rcases elems with _ | ⟨e, _ | ⟨e2, rest⟩⟩
    · rcases hun with hun | hun <;> simp at hun
    · rcases hun with hun | hun
      · simp at hun
      · rw [hun] at hb
        simp [initCtx, hb, hmeq]
    · simp [initCtx, hb, hmeq]

/-- C6: for a successful headers-only fetch (no-download-data flag set, or
method HEAD with no body), `DownloadHeadersOnly` is the chosen fetch entry
point (so the stream consumer is never installed and `OnDownloadData`
never runs); `OnHeadersOnly` then invokes no download-data callback and
exactly one completion callback; when the effective method is not HEAD and
the headers carry a parsed HTTP status, the expected download size is taken
from `GetContentLength` and a single download-progress notification with
current == 0 is emitted before completion, while for HEAD no
download-progress notification is emitted. -/
theorem C6_headers_only_fetch (mime : String → Option String)
    (req : RequestData) (m : RequestManager Unit) (rid : Int) (h : Headers)
    (u : String) (e : Int) (k : Bool)
    (hcase : req.flags.noDownloadData = true
      ∨ (req.method = "HEAD" ∧ req.body = none)) :
    (ContinueOnOriginatingThread mime (initCtx req m) rid true).1.fetchMode
        = some FetchMode.headersOnly
    ∧ nData (OnHeadersOnly
        (ContinueOnOriginatingThread mime (initCtx req m) rid true).1
        h u e k).2 = 0
    ∧ nComplete (OnHeadersOnly
        (ContinueOnOriginatingThread mime (initCtx req m) rid true).1
        h u e k).2 = 1
    ∧ ((ContinueOnOriginatingThread mime (initCtx req m) rid true).1.req.method
          = "HEAD" →
        nDP (OnHeadersOnly
          (ContinueOnOriginatingThread mime (initCtx req m) rid true).1
          h u e k).2 = 0)
    ∧ (¬(ContinueOnOriginatingThread mime (initCtx req m) rid true).1.req.method
          = "HEAD" → ¬h.statusCode = 0 →
        (OnHeadersOnly
          (ContinueOnOriginatingThread mime (initCtx req m) rid true).1
          h u e k).1.downloadDataSize = h.contentLength
        ∧ ∃ l1, (OnHeadersOnly
              (ContinueOnOriginatingThread mime (initCtx req m) rid true).1
              h u e k).2
            = l1 ++ [Event.downloadProgress 0 h.contentLength,
                     Event.requestComplete]
            ∧ nDP l1 = 0 ∧ nComplete l1 = 0) := by
  obtain ⟨d1, d2, _, _⟩ := continue_config_spec mime (initCtx req m) rid rfl
  have hstat :
      (ContinueOnOriginatingThread mime (initCtx req m) rid true).1.status
        = Status.urIOPending := by
    rw [d1]; rfl
  obtain ⟨e1, e2, e3, e4⟩ :=
    OnHeadersOnly_events
      (ContinueOnOriginatingThread mime (initCtx req m) rid true).1
      h u e k d2 hstat
  refine ⟨?_, e1, e2, e3, e4⟩
  rcases hcase with hnd | ⟨hmh, hbn⟩
  · unfold ContinueOnOriginatingThread
    by_cases hgh : req.method = "GET" ∨ req.method = "HEAD" <;>
      rcases hb : req.body with _ | (_ | ⟨el, _ | ⟨el2, rest⟩⟩) <;>
      (try cases el) <;>
      simp [initCtx, hb, hnd, hgh] <;>
      (try split) <;> (try split) <;> simp_all
  · unfold ContinueOnOriginatingThread
    simp [initCtx, hmh, hbn]


theorem C6_witness :
    ((ContinueOnOriginatingThread sampleMime
        (initCtx { sampleReq with flags := { noFlags with noDownloadData := true } }
          RequestManager.empty) (-3) true).1.fetchMode
      = some FetchMode.headersOnly)
    ∧ nComplete (OnHeadersOnly
        (ContinueOnOriginatingThread sampleMime
          (initCtx { sampleReq with flags := { noFlags with noDownloadData := true } }
            RequestManager.empty) (-3) true).1
        { statusCode := 200, contentLength := 42 }
        "https://example.test/resource" 0 false).2 = 1 :=
  ⟨(C6_headers_only_fetch sampleMime _ RequestManager.empty (-3)
      { statusCode := 200, contentLength := 42 }
      "https://example.test/resource" 0 false (Or.inl rfl)).1,
   (C6_headers_only_fetch sampleMime _ RequestManager.empty (-3)
      { statusCode := 200, contentLength := 42 }
      "https://example.test/resource" 0 false (Or.inl rfl)).2.2.1⟩

/-! Witnesses for C5 and C9 -/

theorem C5_witness :
    (ContinueOnOriginatingThread sampleMime
        (initCtx { sampleReq with body := some [Element.bytes "abcd" 1] }
          RequestManager.empty) (-3) true).1.rrMethod = some "POST"
    ∧ (ContinueOnOriginatingThread sampleMime
        (initCtx { sampleReq with body := some [Element.bytes "abcd" 1] }
          RequestManager.empty) (-3) true).1.upload
      = some (.stringUpload "bcd" kContentTypeApplicationFormURLEncoded) :=
  ⟨(C5_get_bytes_body sampleMime _ RequestManager.empty (-3) "abcd" 1
      rfl rfl).1,
   (C5_get_bytes_body sampleMime _ RequestManager.empty (-3) "abcd" 1
      rfl rfl).2.2.2 rfl⟩

/-- A request with report-upload-progress set and a single empty byte-buffer
body element: the body size after the offset is 0. -/
def emptyBytesReq : RequestData :=
  { url := "https://example.test/post"
    method := "POST"
    contentType := none
    body := some [Element.bytes "" 0]
    flags := { noFlags with reportUploadProgress := true } }

/-- C4, counterexample: with a single EMPTY byte-buffer body (byte size 0),
a report-upload-progress request whose transport completes successfully
before any timer-driven upload notification emits NO upload-progress
callback at all — `upload_data_size_ > 0` fails in
`NotifyUploadProgressIfNecessary` — contradicting the claim's "exactly one
upload-progress callback with sent == total == the body's byte size" for
this well-formed run. -/
theorem C4_counterexample :
    WFRunB sampleMime (initCtx emptyBytesReq RequestManager.empty)
        [Op.continueOriginating (-3) true,
         Op.onComplete true "https://example.test/post" 0 false] = true
    ∧ emptyBytesReq.flags.reportUploadProgress = true
    ∧ emptyBytesReq.body = some [Element.bytes "" 0]
    ∧ ¬nUpload (runOps sampleMime
        (initCtx emptyBytesReq RequestManager.empty)
        [Op.continueOriginating (-3) true,
         Op.onComplete true "https://example.test/post" 0 false]).2 = 1 := by
  decide

/-- C4 (amended: the byte-buffer body must be non-empty, i.e.
`offset < length`; with an empty buffer no upload-progress callback is
emitted): for every request with report-upload-progress set and a single
non-empty byte-buffer body whose transport completes successfully before
any timer-driven upload notification, the client observes exactly one
upload-progress callback with sent == total == the body's byte size
(`length - offset`), emitted before every download-progress notification
and before the completion callback — i.e. at the earliest of the first
post-headers download-progress event and the successful completion. -/
theorem C4_single_upload_notification (mime : String → Option String)
    (req : RequestData) (m : RequestManager Unit) (rid : Int) (data : String)
    (off : Nat) (mid : List Op) (u : String) (e : Int) (k : Bool)
    (hf : req.flags.reportUploadProgress = true)
    (hb : req.body = some [Element.bytes data off])
    (hlen : off < data.length)
    (hmid : mid.all midOp = true) :
    ∃ l1 l2,
      (runOps mime
          (ContinueOnOriginatingThread mime (initCtx req m) rid true).1
          (mid ++ [Op.onComplete true u e k])).2
        = l1 ++ Event.uploadProgress ((data.length : Int) - (off : Int))
                  ((data.length : Int) - (off : Int)) :: l2
      ∧ nUpload l1 = 0 ∧ nUpload l2 = 0 ∧ nComplete l1 = 0 ∧ nDP l1 = 0 := by
  have hsz : (0 : Int) < (data.length : Int) - (off : Int) := by omega
  obtain ⟨d1, d2, _, _⟩ := continue_config_spec mime (initCtx req m) rid rfl
  have hstat :
      (ContinueOnOriginatingThread mime (initCtx req m) rid true).1.status
        = Status.urIOPending := by
    rw [d1]; rfl
  have hup :
      (ContinueOnOriginatingThread mime (initCtx req m) rid
        true).1.uploadDataSize
        = (data.length : Int) - (off : Int) := by
    unfold ContinueOnOriginatingThread
    by_cases hgh : req.method = "GET" ∨ req.method = "HEAD" <;>
      simp [initCtx, hb, hf, hgh]
  have hgot :
      (ContinueOnOriginatingThread mime (initCtx req m) rid
        true).1.gotUploadProgressComplete = false := by
    unfold ContinueOnOriginatingThread
    by_cases hgh : req.method = "GET" ∨ req.method = "HEAD" <;>
      simp [initCtx, hb, hf, hgh]
  exact (mid_run_upload mime _ hsz mid _ hmid d2 hstat hup).1 hgot u e k

/-- A request with report-upload-progress set and a non-empty byte-buffer
body. -/
def smallBytesReq : RequestData :=
  { url := "https://example.test/post"
    method := "POST"
    contentType := none
    body := some [Element.bytes "ab" 0]
    flags := { noFlags with reportUploadProgress := true } }

theorem C4_witness :
    ∃ l1 l2,
      (runOps sampleMime
          (ContinueOnOriginatingThread sampleMime
            (initCtx smallBytesReq RequestManager.empty) (-3) true).1
          ([] ++ [Op.onComplete true "https://example.test/post" 0 false])).2
        = l1 ++ Event.uploadProgress
                  (("ab".length : Int) - ((0 : Nat) : Int))
                  (("ab".length : Int) - ((0 : Nat) : Int)) :: l2
      ∧ nUpload l1 = 0 ∧ nUpload l2 = 0 ∧ nComplete l1 = 0 ∧ nDP l1 = 0 :=
  C4_single_upload_notification sampleMime smallBytesReq
    RequestManager.empty (-3) "ab" 0 []
    "https://example.test/post" 0 false rfl rfl (by decide) rfl

theorem C9_witness :
    (ContinueOnOriginatingThread sampleMime
        (initCtx { sampleReq with body := some [Element.other] }
          RequestManager.empty) (-3) true).1.req.method = "POST"
    ∧ (ContinueOnOriginatingThread sampleMime
        (initCtx { sampleReq with body := some [Element.other] }
          RequestManager.empty) (-3) true).1.upload = none :=
  ⟨(C9_rewrite_precedes_body_inspection sampleMime _ RequestManager.empty (-3)
      [Element.other] rfl (Or.inl rfl)).2.1,
   (C9_rewrite_precedes_body_inspection sampleMime _ RequestManager.empty (-3)
      [Element.other] rfl (Or.inl rfl)).2.2 (Or.inr rfl)⟩

end BrowserURLRequest
